import Mathlib

/-!
Shallow embedding of the mbed EEPROM driver (`src/eeprom.cpp`): the chip
catalogue, the constructor, the bounds checker, the address translator, the
paged write engine, the sequential read engine and the sticky error state,
together with a flat-byte-array model of the two-wire bus device, and proofs
about the claims of the specification.
-/

namespace Eeprom

/-- The thirteen chip variants of the `TypeEeprom` enumeration. -/
inductive Typ where
  | T24C01 | T24C02 | T24C04 | T24C08 | T24C16
  | T24C32 | T24C64 | T24C128 | T24C256 | T24C512
  | T24C1024 | T24C1025 | M24M02
  deriving DecidableEq, Repr

/-- Modelled from the spec: the numeric values of the `TypeEeprom` enumerators,
which live in the header `eeprom.h` (not part of the sources).  Each enumerator
equals the variant's nominal capacity in bytes (`_size = _type` in the
constructor); the spec's quirked variants T24C1025 and M24M02 have effective
capacity one below this nominal value, which fixes `T24C1025 = T24C1024 + 1`. -/
def typeVal : Typ → Nat
  | .T24C01 => 128
  | .T24C02 => 256
  | .T24C04 => 512
  | .T24C08 => 1024
  | .T24C16 => 2048
  | .T24C32 => 4096
  | .T24C64 => 8192
  | .T24C128 => 16384
  | .T24C256 => 32768
  | .T24C512 => 65536
  | .T24C1024 => 131072
  | .T24C1025 => 131073
  | .M24M02 => 262144

/-- Modelled from the spec: the error codes from the missing header.  The code
tests faults with `if (_errnum)`, so `EEPROM_NoError` must be zero; the other
codes are distinct nonzero values whose exact numbers are immaterial. -/
def EEPROM_NoError : Nat := 0

/-- Modelled from the spec: chip-select out of range, detected at construction. -/
def EEPROM_BadAddress : Nat := 1

/-- Modelled from the spec: a bus transaction was not acknowledged. -/
def EEPROM_I2cError : Nat := 2

/-- Modelled from the spec: requested address or range beyond the capacity. -/
def EEPROM_OutOfRange : Nat := 3

/-- Modelled from the spec: a scratch buffer could not be allocated. -/
def EEPROM_MallocError : Nat := 4

/-- Modelled from the spec: the base two-wire device address `EEPROM_Address`
from the missing header (the standard serial-EEPROM base); no claim depends on
its numeric value. -/
def EEPROM_Address : Nat := 0xA0

/-- The `_page_write` value assigned by the constructor's `switch` on the variant. -/
def pageWriteSize : Typ → Nat
  | .T24C01 => 8
  | .T24C02 => 8
  | .T24C04 => 16
  | .T24C08 => 16
  | .T24C16 => 16
  | .T24C32 => 32
  | .T24C64 => 32
  | .T24C128 => 64
  | .T24C256 => 64
  | .T24C512 => 128
  | .T24C1024 => 128
  | .T24C1025 => 128
  | .M24M02 => 256

/-- The `_page_block_number` value assigned by the constructor's `switch`. -/
def blockNumber : Typ → Nat
  | .T24C01 => 1
  | .T24C02 => 1
  | .T24C04 => 2
  | .T24C08 => 4
  | .T24C16 => 8
  | .T24C32 => 1
  | .T24C64 => 1
  | .T24C128 => 1
  | .T24C256 => 1
  | .T24C512 => 1
  | .T24C1024 => 2
  | .T24C1025 => 2
  | .M24M02 => 4

/-- The `_size` value: the nominal enumerator value, except that the constructor maps
T24C1025 down to the T24C1024 value (`if (_type == T24C1025) _size = T24C1024`). -/
def sizeVal (t : Typ) : Nat :=
  if t = .T24C1025 then typeVal .T24C1024 else typeVal t

/-- The `_address` register computed by the constructor from the caller's
chip-select byte, including the `uint8_t` truncations of the shifts. -/
def addrRegOf (t : Typ) (cs : Nat) : Nat :=
  match t with
  | .T24C01 => (cs % 256 <<< 1) % 256
  | .T24C02 => (cs % 256 <<< 1) % 256
  | .T24C04 => ((cs % 256 &&& 0xFE) <<< 1) % 256
  | .T24C08 => ((cs % 256 &&& 0xFC) <<< 1) % 256
  | .T24C16 => 0
  | .T24C32 => (cs % 256 <<< 1) % 256
  | .T24C64 => (cs % 256 <<< 1) % 256
  | .T24C128 => (cs % 256 <<< 1) % 256
  | .T24C256 => (cs % 256 <<< 1) % 256
  | .T24C512 => (cs % 256 <<< 1) % 256
  | .T24C1024 => ((cs % 256 &&& 0xFE) <<< 1) % 256
  | .T24C1025 => (cs % 256 <<< 1) % 256
  | .M24M02 => (cs % 256 <<< 3) % 256

/-- The `_errnum` value the constructor leaves behind: `EEPROM_BadAddress`
exactly when the chip-select check of the variant's `case` fires (the T24C16
case performs no check at all). -/
def constructErr (t : Typ) (cs : Nat) : Nat :=
  match t with
  | .T24C01 => if cs % 256 > 7 then EEPROM_BadAddress else EEPROM_NoError
  | .T24C02 => if cs % 256 > 7 then EEPROM_BadAddress else EEPROM_NoError
  | .T24C04 => if cs % 256 > 7 then EEPROM_BadAddress else EEPROM_NoError
  | .T24C08 => if cs % 256 > 7 then EEPROM_BadAddress else EEPROM_NoError
  | .T24C16 => EEPROM_NoError
  | .T24C32 => if cs % 256 > 7 then EEPROM_BadAddress else EEPROM_NoError
  | .T24C64 => if cs % 256 > 7 then EEPROM_BadAddress else EEPROM_NoError
  | .T24C128 => if cs % 256 > 7 then EEPROM_BadAddress else EEPROM_NoError
  | .T24C256 => if cs % 256 > 7 then EEPROM_BadAddress else EEPROM_NoError
  | .T24C512 => if cs % 256 > 7 then EEPROM_BadAddress else EEPROM_NoError
  | .T24C1024 => if cs % 256 > 3 then EEPROM_BadAddress else EEPROM_NoError
  | .T24C1025 => if cs % 256 > 3 then EEPROM_BadAddress else EEPROM_NoError
  | .M24M02 => if cs % 256 > 1 then EEPROM_BadAddress else EEPROM_NoError

/-- The immutable per-device data fixed by the constructor. -/
structure Dev where
  typ : Typ
  addrReg : Nat
  size : Nat
  deriving DecidableEq, Repr

/-- Construction of a device from a chip-select value and a variant. -/
def mkDev (cs : Nat) (t : Typ) : Dev :=
  { typ := t, addrReg := addrRegOf t cs, size := sizeVal t }

/-- Implementation of `EEPROM::getSize`. -/
def getSize (dev : Dev) : Nat := dev.size

/-- Implementation of `EEPROM::checkAddress`: the `switch` comparing the address against the
variant's enumerator, with the `-1` adjustment for T24C1025 and M24M02. -/
def checkAddress (t : Typ) (a : Nat) : Bool :=
  match t with
  | .T24C01 => decide (a < typeVal .T24C01)
  | .T24C02 => decide (a < typeVal .T24C02)
  | .T24C04 => decide (a < typeVal .T24C04)
  | .T24C08 => decide (a < typeVal .T24C08)
  | .T24C16 => decide (a < typeVal .T24C16)
  | .T24C32 => decide (a < typeVal .T24C32)
  | .T24C64 => decide (a < typeVal .T24C64)
  | .T24C128 => decide (a < typeVal .T24C128)
  | .T24C256 => decide (a < typeVal .T24C256)
  | .T24C512 => decide (a < typeVal .T24C512)
  | .T24C1024 => decide (a < typeVal .T24C1024)
  | .T24C1025 => decide (a < typeVal .T24C1025 - 1)
  | .M24M02 => decide (a < typeVal .M24M02 - 1)

/-- Modelled from the spec's words, for comparison with `checkAddress`: the
effective capacity is the nominal capacity minus one for the two quirked
dual-addressing variants and the nominal capacity otherwise. -/
def effectiveCapacitySpec (t : Typ) : Nat :=
  if t = .T24C1025 ∨ t = .M24M02 then typeVal t - 1 else typeVal t

/-- The `page_block` computed before each transaction (lines 183-193 and their
copies): a 255-byte stride for types below T24C32, a 65535-byte stride for
types above T24C512, block 0 otherwise; stored in a `uint8_t`. -/
def pageBlockOf (t : Typ) (a : Nat) : Nat :=
  if typeVal t < typeVal .T24C32 then a / 0xFF % 256
  else if typeVal t > typeVal .T24C512 then a / 0xFFFF % 256
  else 0

/-- The in-block remainder left in the `address` variable by the same code. -/
def inBlockAddr (t : Typ) (a : Nat) : Nat :=
  if typeVal t < typeVal .T24C32 then a % 0xFF
  else if typeVal t > typeVal .T24C512 then a % 0xFFFF
  else a

/-- Number of word-address bytes: one below T24C32, two otherwise. -/
def wordLen (t : Typ) : Nat :=
  if typeVal t < typeVal .T24C32 then 1 else 2

/-- The bus device address `EEPROM_Address | _address | (page_block << 1)`. -/
def devAddrOf (dev : Dev) (blk : Nat) : Nat :=
  EEPROM_Address ||| dev.addrReg ||| (blk <<< 1)

/-- The configured base bus address of the device (spec: `base_bus_address`). -/
def baseBusAddr (dev : Dev) : Nat :=
  EEPROM_Address ||| dev.addrReg

/-- The word-address bytes, MSB first when there are two
(`cmd[l] = (uint8_t)(w >> (8 * (len - l - 1)))`). -/
def addressBytes (wl : Nat) (w : Nat) : List Nat :=
  if wl = 1 then [w % 256] else [w >>> 8 % 256, w % 256]

/-- A bus transaction, as logged by the model transport: an addressed write of
a byte buffer (optionally without a trailing stop condition) or an addressed
read of a byte count. -/
inductive Ev where
  | i2cW (addr : Nat) (bytes : List Nat) (rep : Bool)
  | i2cR (addr : Nat) (size : Nat)
  deriving DecidableEq, Repr

/-- The mutable state of a run: the device's flat byte array (physical bytes,
per the flat-array reading of the bus device), the device's internal address
counter, the log of bus transactions, and the sticky `_errnum`. -/
structure St where
  mem : Nat → Nat
  cur : Nat
  log : List Ev
  err : Nat

/-- Overwrite `data.length` consecutive physical bytes starting at `start`. -/
def storeBytes (start : Nat) (data : List Nat) (mem : Nat → Nat) : Nat → Nat :=
  fun a => if start ≤ a ∧ a - start < data.length then data.getD (a - start) 0 else mem a

/-- Decode the word address from the first `wl` buffer bytes, MSB first. -/
def decodeWord (wl : Nat) (bytes : List Nat) : Nat :=
  if wl = 1 then bytes.getD 0 0 else bytes.getD 0 0 * 256 + bytes.getD 1 0

/-- The block index a physical device recovers from the bus address: the bits
above the read/write bit, masked to the device's block-select width. -/
def blockFromAddr (t : Typ) (da : Nat) : Nat :=
  (da >>> 1) &&& (blockNumber t - 1)

/-- The flat physical index of a transaction's first data byte: the resolved
block times the span of one word-address field, plus the word address.  This
is the claim's flat-byte-array model of the device behind the transport. -/
def physStart (t : Typ) (da : Nat) (bytes : List Nat) : Nat :=
  blockFromAddr t da * 2 ^ (8 * wordLen t) + decodeWord (wordLen t) bytes

/-- The model transport's acknowledge code: the healthy bus always acks, so
`EEPROM_I2cError` is unreachable in the model (claims quantify over healthy
devices; a single ready-poll therefore also always succeeds). -/
def busAck : Nat := 0

/-- Model of `_i2c.write`: log the transaction; when the buffer holds at least the
word-address bytes the device latches its address counter there and stores any
following data bytes at consecutive physical addresses. -/
def i2cWrite (t : Typ) (da : Nat) (bytes : List Nat) (rep : Bool) (st : St) : St :=
  if wordLen t ≤ bytes.length then
    { mem := storeBytes (physStart t da bytes) (bytes.drop (wordLen t)) st.mem
      cur := physStart t da bytes + (bytes.length - wordLen t)
      log := st.log ++ [.i2cW da bytes rep]
      err := st.err }
  else
    { st with log := st.log ++ [.i2cW da bytes rep] }

/-- Model of `_i2c.read`: a sequential read of `size` bytes from the device's current
address counter, which then advances past them. -/
def i2cRead (da : Nat) (size : Nat) (st : St) : St × List Nat :=
  ({ st with cur := st.cur + size, log := st.log ++ [.i2cR da size] },
   (List.range size).map fun i => st.mem (st.cur + i))

/-- Record a fault in `_errnum`. -/
def setErr (st : St) (e : Nat) : St := { st with err := e }

/-- The wrapped `uint32_t` value of `address + size - 1` as computed by the
range checks (`checkAddress(address + size - 1)`); the wrap matters only for
`size == 0`. -/
def endAddr (a : Nat) (size : Nat) : Nat :=
  (a + size + (2 ^ 32 - 1)) % 2 ^ 32

/-- Implementation of `EEPROM::ready`: abort when faulted, otherwise poll with a zero-length
addressed write until acked (one poll in the model, see `busAck`). -/
def ready (dev : Dev) (st : St) : St :=
  if st.err ≠ 0 then st
  else i2cWrite dev.typ (EEPROM_Address ||| dev.addrReg) [] false st

/-- Implementation of `EEPROM::read(uint32_t, int8_t*, uint32_t)`: fault and range checks, block
resolution, a word-address write without stop, then one sequential bus read.
`none` models an early return that leaves the caller's buffer untouched. -/
def readArray (dev : Dev) (a : Nat) (size : Nat) (st : St) : St × Option (List Nat) :=
  if st.err ≠ 0 then (st, none)
  else if checkAddress dev.typ a = false then (setErr st EEPROM_OutOfRange, none)
  else if checkAddress dev.typ (endAddr a size) = false then (setErr st EEPROM_OutOfRange, none)
  else
    let blk := pageBlockOf dev.typ a
    let inb := inBlockAddr dev.typ a
    let da := devAddrOf dev blk
    let st1 := i2cWrite dev.typ da (addressBytes (wordLen dev.typ) inb) true st
    if busAck ≠ 0 then (setErr st1 EEPROM_I2cError, none)
    else
      let r := i2cRead da size st1
      if busAck ≠ 0 then (setErr r.1 EEPROM_I2cError, none)
      else (r.1, some r.2)

/-- Implementation of `EEPROM::read(uint32_t, int8_t&)`, the random single-byte read. -/
def readByte (dev : Dev) (a : Nat) (st : St) : St × Option Nat :=
  if st.err ≠ 0 then (st, none)
  else if checkAddress dev.typ a = false then (setErr st EEPROM_OutOfRange, none)
  else
    let blk := pageBlockOf dev.typ a
    let inb := inBlockAddr dev.typ a
    let da := devAddrOf dev blk
    let st1 := i2cWrite dev.typ da (addressBytes (wordLen dev.typ) inb) true st
    if busAck ≠ 0 then (setErr st1 EEPROM_I2cError, none)
    else
      let r := i2cRead da 1 st1
      if busAck ≠ 0 then (setErr r.1 EEPROM_I2cError, none)
      else (r.1, some (r.2.getD 0 0))

/-- Implementation of `EEPROM::read(int8_t&)`, the current-address read, with no word-address
transaction. -/
def readCurrent (dev : Dev) (st : St) : St × Option Nat :=
  if st.err ≠ 0 then (st, none)
  else
    let da := EEPROM_Address ||| dev.addrReg
    let r := i2cRead da 1 st
    if busAck ≠ 0 then (setErr r.1 EEPROM_I2cError, none)
    else (r.1, some (r.2.getD 0 0))

/-- Implementation of `EEPROM::write(uint32_t, int8_t)`, the single-byte write. -/
def writeByte (dev : Dev) (a : Nat) (d : Nat) (st : St) : St :=
  if st.err ≠ 0 then st
  else if checkAddress dev.typ a = false then setErr st EEPROM_OutOfRange
  else
    let blk := pageBlockOf dev.typ a
    let inb := inBlockAddr dev.typ a
    let da := devAddrOf dev blk
    let cmd := if wordLen dev.typ = 1 then [inb % 256, d % 256]
               else [inb >>> 8 % 256, inb % 256, d % 256]
    let st1 := i2cWrite dev.typ da cmd false st
    if busAck ≠ 0 then setErr st1 EEPROM_I2cError
    else ready dev st1

/-- One iteration of the paged-write loop (lines 287-341): block resolution,
intra-page offset, optional read-modify-write of the whole aligned page, splice
of the caller's bytes, one full-page bus write, ready-wait, and the update of
the running counters.  The spliced byte count is `min(page - offset, max(0,
bytes_to_write))`, matching the `uint8_t j` loop (which fails to terminate in C
when that count would exceed 255, i.e. for full 256-byte M24M02 pages; no
theorem below evaluates that divergent case).  When the read-modify-write read
aborts, the C buffer keeps indeterminate stack bytes, modelled as zeros. -/
def chunkStep (dev : Dev) (data : List Nat) (length : Nat) (startA : Nat)
    (w : Nat) (addr : Nat) (st : St) : Bool × Nat × Nat × St :=
  let t := dev.typ
  let page := pageWriteSize t
  let blk := pageBlockOf t addr
  let inb := inBlockAddr t addr
  let da := devAddrOf dev blk
  let wl := wordLen t
  let po := inb % page
  let wb := addressBytes wl (inb - po)
  let btw : Int := (length : Int) - (w : Int)
  let rd := if po ≠ 0 ∨ btw < (page : Int)
            then readArray dev (inb - po) page st else (st, none)
  let scratch := rd.2.getD (List.replicate page 0)
  let s := min (page - po) btw.toNat
  let buf := (List.range page).map fun k =>
    if po ≤ k ∧ k < po + s then data.getD (w + (k - po)) 0 % 256 else scratch.getD k 0
  let st1 := i2cWrite t da (wb ++ buf) false rd.1
  if busAck ≠ 0 then (true, w, addr, setErr st1 EEPROM_I2cError)
  else
    let st2 := ready dev st1
    let w' := w + (page - po)
    (false, w', startA + w', st2)

/-- The chunk loop of the paged write, iterated `blocs` times with an early
stop on a failed bus write. -/
def chunkLoop (dev : Dev) (data : List Nat) (length : Nat) (startA : Nat) :
    Nat → Nat → Nat → St → St
  | 0, _, _, st => st
  | n + 1, w, addr, st =>
    match chunkStep dev data length startA w addr st with
    | (stop, w', a', st') =>
      if stop then st' else chunkLoop dev data length startA n w' a' st'

/-- Implementation of `EEPROM::write(uint32_t, int8_t[], uint32_t)`: fault and range checks (the
end-of-span check wraps for `length == 0`), the `uint8_t` chunk count
`blocs = (length + offset) / page` with its `uint16_t` remainder, and the
chunk loop. -/
def writeArray (dev : Dev) (a : Nat) (data : List Nat) (length : Nat) (st : St) : St :=
  if st.err ≠ 0 then st
  else if checkAddress dev.typ a = false then setErr st EEPROM_OutOfRange
  else if checkAddress dev.typ (endAddr a length) = false then setErr st EEPROM_OutOfRange
  else
    let page := pageWriteSize dev.typ
    let offset := a % page
    let blocs0 := (length + offset) / page % 256
    let remain := ((length + offset) - blocs0 * page) % 65536
    let blocs := if remain ≠ 0 then (blocs0 + 1) % 256 else blocs0
    chunkLoop dev data length a blocs 0 a st

/-- The little-endian byte quadruple `memcpy` leaves for a 32-bit value. -/
def toLE4 (n : Nat) : List Nat :=
  [n % 256, n / 256 % 256, n / 2 ^ 16 % 256, n / 2 ^ 24 % 256]

/-- The little-endian byte pair `memcpy` leaves for a 16-bit value. -/
def toLE2 (n : Nat) : List Nat :=
  [n % 256, n / 256 % 256]

/-- Implementation of `EEPROM::write(uint32_t, int16_t)`: width check then the paged write of
the value's two bytes (the value is taken as its 16-bit pattern). -/
def writeShort (dev : Dev) (a : Nat) (v : Nat) (st : St) : St :=
  if st.err ≠ 0 then st
  else if checkAddress dev.typ (a + 1) = false then setErr st EEPROM_OutOfRange
  else writeArray dev a (toLE2 v) 2 st

/-- Implementation of `EEPROM::write(uint32_t, int32_t)`: width check then the paged write of
the value's four bytes (the value is taken as its 32-bit pattern). -/
def writeLong (dev : Dev) (a : Nat) (v : Nat) (st : St) : St :=
  if st.err ≠ 0 then st
  else if checkAddress dev.typ (a + 3) = false then setErr st EEPROM_OutOfRange
  else writeArray dev a (toLE4 v) 4 st

/-- Implementation of `EEPROM::write(uint32_t, float)`: identical control flow to the 32-bit
write; the float is abstracted by its 32-bit pattern. -/
def writeFloat (dev : Dev) (a : Nat) (bits : Nat) (st : St) : St :=
  if st.err ≠ 0 then st
  else if checkAddress dev.typ (a + 3) = false then setErr st EEPROM_OutOfRange
  else writeArray dev a (toLE4 bits) 4 st

/-- Implementation of `EEPROM::write(uint32_t, void*, uint32_t)`: range check, scratch copy
(allocation always succeeds in the model), then the paged write. -/
def writeRaw (dev : Dev) (a : Nat) (data : List Nat) (size : Nat) (st : St) : St :=
  if st.err ≠ 0 then st
  else if checkAddress dev.typ (endAddr a size) = false then setErr st EEPROM_OutOfRange
  else writeArray dev a data size st

/-- Implementation of `EEPROM::read(uint32_t, int16_t&)`. -/
def readShort (dev : Dev) (a : Nat) (st : St) : St × Option Nat :=
  if st.err ≠ 0 then (st, none)
  else if checkAddress dev.typ (a + 1) = false then (setErr st EEPROM_OutOfRange, none)
  else
    let r := readArray dev a 2 st
    (r.1, r.2.map fun bs => bs.getD 0 0 + 256 * bs.getD 1 0)

/-- Implementation of `EEPROM::read(uint32_t, int32_t&)`. -/
def readLong (dev : Dev) (a : Nat) (st : St) : St × Option Nat :=
  if st.err ≠ 0 then (st, none)
  else if checkAddress dev.typ (a + 3) = false then (setErr st EEPROM_OutOfRange, none)
  else
    let r := readArray dev a 4 st
    (r.1, r.2.map fun bs =>
      bs.getD 0 0 + 256 * bs.getD 1 0 + 2 ^ 16 * bs.getD 2 0 + 2 ^ 24 * bs.getD 3 0)

/-- Implementation of `EEPROM::read(uint32_t, float&)`: identical control flow; the result is
the 32-bit pattern. -/
def readFloat (dev : Dev) (a : Nat) (st : St) : St × Option Nat :=
  if st.err ≠ 0 then (st, none)
  else if checkAddress dev.typ (a + 3) = false then (setErr st EEPROM_OutOfRange, none)
  else
    let r := readArray dev a 4 st
    (r.1, r.2.map fun bs =>
      bs.getD 0 0 + 256 * bs.getD 1 0 + 2 ^ 16 * bs.getD 2 0 + 2 ^ 24 * bs.getD 3 0)

/-- Implementation of `EEPROM::read(uint32_t, void*, uint32_t)`: range check, scratch read
(allocation always succeeds in the model), copy out. -/
def readRaw (dev : Dev) (a : Nat) (size : Nat) (st : St) : St × Option (List Nat) :=
  if st.err ≠ 0 then (st, none)
  else if checkAddress dev.typ (endAddr a size) = false then (setErr st EEPROM_OutOfRange, none)
  else readArray dev a size st

/-- Implementation of `EEPROM::clear`: write a zero 32-bit word at every fourth address across
`_size` bytes. -/
def clear (dev : Dev) (st : St) : St :=
  (List.range (dev.size / 4)).foldl (fun s i => writeLong dev (i * 4) 0 s) st

/-- Implementation of `EEPROM::getError`. -/
def getError (st : St) : Nat := st.err

/-- A T24C16 device (8 blocks of 256 bytes, 16-byte pages, chip select 0). -/
def devT24C16 : Dev := mkDev 0 .T24C16

/-- An M24M02 device (4 blocks of 65536 bytes, 256-byte pages, chip select 0). -/
def devM24M02 : Dev := mkDev 0 .M24M02

/-- A healthy state over an all-zero device array. -/
def stZero : St := { mem := fun _ => 0, cur := 0, log := [], err := 0 }

/-- A healthy state whose array holds 170 at physical 0 and 187 at physical
256, the two probe bytes of the partial-page-write experiment. -/
def stProbe : St :=
  { mem := fun a => if a = 256 then 187 else if a = 0 then 170 else 0
    cur := 0, log := [], err := 0 }

/-- A state already carrying the sticky fault `EEPROM_I2cError`. -/
def stFaulted : St := { mem := fun _ => 0, cur := 0, log := [], err := EEPROM_I2cError }

/-- The page-write transactions of a log: the addressed writes that carry more
than the word-address bytes (word-address-only writes and zero-length ready
polls carry at most `wl` bytes). -/
def pageWriteTxs (wl : Nat) (log : List Ev) : List Ev :=
  log.filter fun e => match e with
    | .i2cW _ bs _ => decide (wl < bs.length)
    | .i2cR _ _ => false

end Eeprom

namespace Eeprom

/-- C1: the round-trip property fails on the code.  On a T24C16 with an
all-zero array, writing the ten bytes 1..10 at address 250 and reading ten
bytes back at 250 returns `[1,2,3,4,5,6,0,7,8,9]`, not the written bytes: the
second page chunk starts at logical 256, which the 255-byte block stride maps
to block 1 word 0, so byte 7 lands at physical 257 while the sequential read's
seventh byte comes from physical 256, a byte the read-modify-write refreshed
from address 0.  The device stays healthy throughout, so the loss is silent. -/
theorem roundTrip_failure_T24C16 :
    (writeArray devT24C16 250 [1,2,3,4,5,6,7,8,9,10] 10 stZero).err = EEPROM_NoError ∧
    (readArray devT24C16 250 10
        (writeArray devT24C16 250 [1,2,3,4,5,6,7,8,9,10] 10 stZero)).2
      = some [1,2,3,4,5,6,0,7,8,9] ∧
    ([1,2,3,4,5,6,0,7,8,9] : List Nat) ≠ [1,2,3,4,5,6,7,8,9,10] := by
  refine ⟨by decide, by decide, by decide⟩

/-- C4: partial-page-write preservation fails on the code.  On a T24C16
holding 170 at physical 0 and 187 at physical 256, writing the single byte 66
at logical address 257 (block 1 of the 255-byte stride, intra-page offset 2)
performs its read-modify-write against the page at the in-block address, i.e.
block 0's physical page 0..15, and then writes that page image into block 1:
physical 256, a byte of the affected page outside the written span, changes
from 187 to 170 while the payload lands at physical 258. -/
theorem partial_page_write_clobbers_T24C16 :
    (writeArray devT24C16 257 [66] 1 stProbe).err = EEPROM_NoError ∧
    stProbe.mem 256 = 187 ∧
    (writeArray devT24C16 257 [66] 1 stProbe).mem 256 = 170 ∧
    (writeArray devT24C16 257 [66] 1 stProbe).mem 258 = 66 := by
  refine ⟨by decide, by decide, by decide, by decide⟩

/-- C2 counterexample: the claim keys the 65535-byte stride to a page size
above 128, but T24C1024 has page size exactly 128 and still folds blocks: at
the in-range address 70000 the code resolves block 1 and in-block address
4465, not the claim's block 0 with the address unchanged. -/
theorem pageSize_condition_mismatch_T24C1024 :
    checkAddress .T24C1024 70000 = true ∧
    ¬ pageWriteSize .T24C1024 < 32 ∧
    ¬ pageWriteSize .T24C1024 > 128 ∧
    pageBlockOf .T24C1024 70000 = 1 ∧
    inBlockAddr .T24C1024 70000 = 4465 := by
  refine ⟨by decide, by decide, by decide, by decide, by decide⟩

/-- C2 amended: for every variant and in-range address, block selection is
`address / 255` with in-block address `address % 255` for types ordered below
T24C32, `address / 65535` with `address % 65535` for types ordered above
T24C512 (page size above 128 holds only for M24M02; T24C1024 and T24C1025 have
page size 128 yet use the stride), and block 0 with the address unchanged in
between; the bus device address is the configured base OR-ed with the block
shifted left by one. -/
theorem address_resolution_by_type_ordering (t : Typ) (a : Nat)
    (h : checkAddress t a = true) :
    (typeVal t < typeVal .T24C32 →
      pageBlockOf t a = a / 255 ∧ inBlockAddr t a = a % 255) ∧
    (typeVal t > typeVal .T24C512 →
      pageBlockOf t a = a / 65535 ∧ inBlockAddr t a = a % 65535) ∧
    (typeVal .T24C32 ≤ typeVal t → typeVal t ≤ typeVal .T24C512 →
      pageBlockOf t a = 0 ∧ inBlockAddr t a = a) ∧
    ∀ cs, devAddrOf (mkDev cs t) (pageBlockOf t a) =
      baseBusAddr (mkDev cs t) ||| (pageBlockOf t a <<< 1) := by
  cases t <;>
    simp only [checkAddress, typeVal, decide_eq_true_eq] at h <;>
    refine ⟨?_, ?_, ?_, fun cs => rfl⟩ <;>
    simp [pageBlockOf, inBlockAddr, typeVal] <;>
    omega

/-- C2 witness: the amended resolution at the in-range T24C16 address 300. -/
theorem address_resolution_by_type_ordering_witness :
    checkAddress .T24C16 300 = true ∧
    ((typeVal .T24C16 < typeVal .T24C32 →
      pageBlockOf .T24C16 300 = 300 / 255 ∧ inBlockAddr .T24C16 300 = 300 % 255) ∧
    (typeVal .T24C16 > typeVal .T24C512 →
      pageBlockOf .T24C16 300 = 300 / 65535 ∧ inBlockAddr .T24C16 300 = 300 % 65535) ∧
    (typeVal .T24C32 ≤ typeVal .T24C16 → typeVal .T24C16 ≤ typeVal .T24C512 →
      pageBlockOf .T24C16 300 = 0 ∧ inBlockAddr .T24C16 300 = 300) ∧
    ∀ cs, devAddrOf (mkDev cs .T24C16) (pageBlockOf .T24C16 300) =
      baseBusAddr (mkDev cs .T24C16) ||| (pageBlockOf .T24C16 300 <<< 1)) :=
  ⟨by decide, address_resolution_by_type_ordering .T24C16 300 (by decide)⟩

/-- C3: the bounds check accepts an address exactly when it is strictly below
the effective capacity: the nominal capacity minus one for the quirked
T24C1025 and M24M02, and the nominal capacity for every other variant. -/
theorem checkAddress_iff_below_effectiveCapacity (t : Typ) (a : Nat) :
    checkAddress t a = decide (a < effectiveCapacitySpec t) := by
  cases t <;> rfl

/-- C8 counterexample: the claim predicts `BadAddress` for every byte/kilobit
variant when the chip select exceeds 7, but the T24C16 constructor case checks
nothing: chip select 8 leaves the device with no error. -/
theorem t24c16_chip_select_unchecked :
    (8 : Nat) > 7 ∧
    constructErr .T24C16 8 = EEPROM_NoError ∧
    EEPROM_BadAddress ≠ EEPROM_NoError := by
  refine ⟨by decide, by decide, by decide⟩

/-- C8 amended: construction records `BadAddress` exactly when the chip select
exceeds 7 for the byte/kilobit variants other than T24C16 (whose case ignores
the chip select entirely), exceeds 3 for T24C1024 and T24C1025, or exceeds 1
for M24M02; otherwise the device starts with no error. -/
theorem constructErr_characterization (t : Typ) (cs : Nat) :
    constructErr t cs =
      if (t ≠ .T24C16 ∧ typeVal t ≤ typeVal .T24C512 ∧ cs % 256 > 7)
          ∨ ((t = .T24C1024 ∨ t = .T24C1025) ∧ cs % 256 > 3)
          ∨ (t = .M24M02 ∧ cs % 256 > 1)
      then EEPROM_BadAddress else EEPROM_NoError := by
  cases t <;> simp [constructErr, typeVal]

/-- C9 counterexample: a zero-length array write at the in-range address 0 is
not error-free: `checkAddress(address + length - 1)` wraps to `0xFFFFFFFF` and
the device records `OutOfRange`. -/
theorem zero_length_write_at_zero_faults :
    checkAddress devT24C16.typ 0 = true ∧
    (writeArray devT24C16 0 [] 0 stZero).err = EEPROM_OutOfRange := by
  refine ⟨by decide, by decide⟩

/-- A faulted state is a fixed point of the 32-bit-write loop of `clear`. -/
theorem foldl_writeLong_faulted (dev : Dev) (st : St) (h : st.err ≠ 0) (l : List Nat) :
    l.foldl (fun s i => writeLong dev (i * 4) 0 s) st = st := by
  induction l with
  | nil => rfl
  | cons x xs ih =>
    have hx : writeLong dev (x * 4) 0 st = st := by
      simp only [writeLong, if_pos h]
    rw [List.foldl_cons, hx, ih]

/-- C6: once the error state holds any non-zero fault code, every operation
(each write overload, each read overload, and `clear`) returns with the state
unchanged: no bus transaction is logged, the array and the error state are
untouched, and `getError` keeps reporting the original fault code. -/
theorem faulted_ops_are_noops (dev : Dev) (st : St) (h : st.err ≠ 0)
    (a n v : Nat) (data : List Nat) :
    writeByte dev a v st = st ∧
    writeArray dev a data n st = st ∧
    writeShort dev a v st = st ∧
    writeLong dev a v st = st ∧
    writeFloat dev a v st = st ∧
    writeRaw dev a data n st = st ∧
    readByte dev a st = (st, none) ∧
    readArray dev a n st = (st, none) ∧
    readCurrent dev st = (st, none) ∧
    readShort dev a st = (st, none) ∧
    readLong dev a st = (st, none) ∧
    readFloat dev a st = (st, none) ∧
    readRaw dev a n st = (st, none) ∧
    clear dev st = st ∧
    getError (clear dev st) = st.err := by
  have hclear : clear dev st = st := by
    rw [clear]; exact foldl_writeLong_faulted dev st h _
  refine ⟨?_, ?_, ?_, ?_, ?_, ?_, ?_, ?_, ?_, ?_, ?_, ?_, ?_, hclear,
    by rw [getError, hclear]⟩ <;>
    simp only [writeByte, writeArray, writeShort, writeLong, writeFloat, writeRaw,
      readByte, readArray, readCurrent, readShort, readLong, readFloat, readRaw,
      if_pos h]

/-- C6 witness: the no-op behaviour on a concrete faulted T24C16 state. -/
theorem faulted_ops_are_noops_witness :
    stFaulted.err ≠ 0 ∧
    (writeByte devT24C16 3 7 stFaulted = stFaulted ∧
    writeArray devT24C16 3 [1, 2] 2 stFaulted = stFaulted ∧
    writeShort devT24C16 3 7 stFaulted = stFaulted ∧
    writeLong devT24C16 3 7 stFaulted = stFaulted ∧
    writeFloat devT24C16 3 7 stFaulted = stFaulted ∧
    writeRaw devT24C16 3 [1, 2] 2 stFaulted = stFaulted ∧
    readByte devT24C16 3 stFaulted = (stFaulted, none) ∧
    readArray devT24C16 3 2 stFaulted = (stFaulted, none) ∧
    readCurrent devT24C16 stFaulted = (stFaulted, none) ∧
    readShort devT24C16 3 stFaulted = (stFaulted, none) ∧
    readLong devT24C16 3 stFaulted = (stFaulted, none) ∧
    readFloat devT24C16 3 stFaulted = (stFaulted, none) ∧
    readRaw devT24C16 3 2 stFaulted = (stFaulted, none) ∧
    clear devT24C16 stFaulted = stFaulted ∧
    getError (clear devT24C16 stFaulted) = stFaulted.err) :=
  ⟨by decide, faulted_ops_are_noops devT24C16 stFaulted (by decide) 3 2 7 [1, 2]⟩

/-- Reading a list back element by element with `getD` over its index range
reproduces the list. -/
theorem map_getD_range (l : List Nat) :
    (List.range l.length).map (fun i => l.getD i 0) = l := by
  induction l with
  | nil => rfl
  | cons x xs ih =>
    rw [List.length_cons, List.range_succ_eq_map, List.map_cons, List.map_map]
    simp only [Function.comp_def, List.getD_cons_zero, List.getD_cons_succ]
    exact congrArg (x :: .) ih

/-- C5: the concrete scenario on the 8-block, 16-byte-page, one-word-address
variant T24C16.  For any prior array contents and any 20-byte payload, the
array write of 20 bytes at logical address 10 issues exactly two page-write
transactions: the first a read-modify-write image of the page at 0..15 whose
head carries the ten prior bytes and whose tail carries payload bytes 0..5
(addresses 10..15), the second an image of the page at 16..31 carrying payload
bytes 6..19 (addresses 16..29) followed by the two prior bytes at 30..31; the
device stays healthy and a subsequent read of addresses 10..29 returns the
original 20 bytes. -/
theorem t24c16_twenty_byte_scenario (m : Nat → Nat) (data : List Nat)
    (hlen : data.length = 20) (hbytes : ∀ x ∈ data, x < 256) :
    pageWriteTxs (wordLen .T24C16) (writeArray devT24C16 10 data 20 ⟨m, 0, [], 0⟩).log =
      [Ev.i2cW 160 [0, m 0, m 1, m 2, m 3, m 4, m 5, m 6, m 7, m 8, m 9,
        data.getD 0 0, data.getD 1 0, data.getD 2 0,
        data.getD 3 0, data.getD 4 0, data.getD 5 0] false,
       Ev.i2cW 160 [16, data.getD 6 0, data.getD 7 0, data.getD 8 0, data.getD 9 0,
        data.getD 10 0, data.getD 11 0, data.getD 12 0, data.getD 13 0, data.getD 14 0,
        data.getD 15 0, data.getD 16 0, data.getD 17 0, data.getD 18 0, data.getD 19 0,
        m 30, m 31] false] ∧
    (readArray devT24C16 10 20 (writeArray devT24C16 10 data 20 ⟨m, 0, [], 0⟩)).2
      = some data ∧
    (writeArray devT24C16 10 data 20 ⟨m, 0, [], 0⟩).err = EEPROM_NoError := by
  have hb : ∀ j, j < 20 → data.getD j 0 % 256 = data.getD j 0 := by
    intro j hj
    have hmem : data.getD j 0 ∈ data := by
      rw [List.getD_eq_getElem data 0 (by omega)]
      exact List.getElem_mem _
    exact Nat.mod_eq_of_lt (hbytes _ hmem)
  have g1 : pageWriteTxs (wordLen .T24C16) (writeArray devT24C16 10 data 20 ⟨m, 0, [], 0⟩).log =
      [Ev.i2cW 160 [0, m 0, m 1, m 2, m 3, m 4, m 5, m 6, m 7, m 8, m 9,
        data.getD 0 0 % 256, data.getD 1 0 % 256, data.getD 2 0 % 256,
        data.getD 3 0 % 256, data.getD 4 0 % 256, data.getD 5 0 % 256] false,
       Ev.i2cW 160 [16, data.getD 6 0 % 256, data.getD 7 0 % 256, data.getD 8 0 % 256,
        data.getD 9 0 % 256, data.getD 10 0 % 256, data.getD 11 0 % 256, data.getD 12 0 % 256,
        data.getD 13 0 % 256, data.getD 14 0 % 256, data.getD 15 0 % 256, data.getD 16 0 % 256,
        data.getD 17 0 % 256, data.getD 18 0 % 256, data.getD 19 0 % 256,
        m 30, m 31] false] := rfl
  have g2 : (readArray devT24C16 10 20 (writeArray devT24C16 10 data 20 ⟨m, 0, [], 0⟩)).2
      = some [data.getD 0 0 % 256, data.getD 1 0 % 256, data.getD 2 0 % 256,
        data.getD 3 0 % 256, data.getD 4 0 % 256, data.getD 5 0 % 256,
        data.getD 6 0 % 256, data.getD 7 0 % 256, data.getD 8 0 % 256, data.getD 9 0 % 256,
        data.getD 10 0 % 256, data.getD 11 0 % 256, data.getD 12 0 % 256,
        data.getD 13 0 % 256, data.getD 14 0 % 256, data.getD 15 0 % 256,
        data.getD 16 0 % 256, data.getD 17 0 % 256, data.getD 18 0 % 256,
        data.getD 19 0 % 256] := rfl
  have hdata : (List.range 20).map (fun i => data.getD i 0) = data := by
    have h0 := map_getD_range data
    rw [hlen] at h0
    exact h0
  refine ⟨?_, ?_, rfl⟩
  . rw [g1]
    simp only [hb 0 (by norm_num), hb 1 (by norm_num), hb 2 (by norm_num), hb 3 (by norm_num),
      hb 4 (by norm_num), hb 5 (by norm_num), hb 6 (by norm_num), hb 7 (by norm_num),
      hb 8 (by norm_num), hb 9 (by norm_num), hb 10 (by norm_num), hb 11 (by norm_num),
      hb 12 (by norm_num), hb 13 (by norm_num), hb 14 (by norm_num), hb 15 (by norm_num),
      hb 16 (by norm_num), hb 17 (by norm_num), hb 18 (by norm_num), hb 19 (by norm_num)]
  . rw [g2]
    simp only [hb 0 (by norm_num), hb 1 (by norm_num), hb 2 (by norm_num), hb 3 (by norm_num),
      hb 4 (by norm_num), hb 5 (by norm_num), hb 6 (by norm_num), hb 7 (by norm_num),
      hb 8 (by norm_num), hb 9 (by norm_num), hb 10 (by norm_num), hb 11 (by norm_num),
      hb 12 (by norm_num), hb 13 (by norm_num), hb 14 (by norm_num), hb 15 (by norm_num),
      hb 16 (by norm_num), hb 17 (by norm_num), hb 18 (by norm_num), hb 19 (by norm_num)]
    conv_rhs => rw [← hdata]
    rfl

/-- C5 witness: the scenario instantiated on an all-zero prior array with the
payload bytes 1..20. -/
theorem t24c16_twenty_byte_scenario_witness :
    ([(1 : Nat), 2, 3, 4, 5, 6, 7, 8, 9, 10, 11, 12, 13, 14, 15, 16, 17, 18, 19, 20].length = 20
      ∧ ∀ x ∈ [(1 : Nat), 2, 3, 4, 5, 6, 7, 8, 9, 10, 11, 12, 13, 14, 15, 16, 17, 18, 19, 20],
        x < 256) ∧
    pageWriteTxs (wordLen .T24C16)
      (writeArray devT24C16 10 [1, 2, 3, 4, 5, 6, 7, 8, 9, 10, 11, 12, 13, 14, 15, 16, 17, 18,
        19, 20] 20 ⟨fun _ => 0, 0, [], 0⟩).log =
      [Ev.i2cW 160 [0, 0, 0, 0, 0, 0, 0, 0, 0, 0, 0, 1, 2, 3, 4, 5, 6] false,
       Ev.i2cW 160 [16, 7, 8, 9, 10, 11, 12, 13, 14, 15, 16, 17, 18, 19, 20, 0, 0] false] ∧
    (readArray devT24C16 10 20
      (writeArray devT24C16 10 [1, 2, 3, 4, 5, 6, 7, 8, 9, 10, 11, 12, 13, 14, 15, 16, 17, 18,
        19, 20] 20 ⟨fun _ => 0, 0, [], 0⟩)).2
      = some [1, 2, 3, 4, 5, 6, 7, 8, 9, 10, 11, 12, 13, 14, 15, 16, 17, 18, 19, 20] := by
  have h := t24c16_twenty_byte_scenario (fun _ => 0)
    [1, 2, 3, 4, 5, 6, 7, 8, 9, 10, 11, 12, 13, 14, 15, 16, 17, 18, 19, 20]
    (by decide) (by decide)
  exact ⟨⟨by decide, by decide⟩, h.1, h.2.1⟩

/-- C7: `clear()` does not leave every variant healthy.  On M24M02 the loop
runs `_size / 4 = 65536` iterations, and the final one writes the 32-bit word
at address 262140: its width check `checkAddress(address + 3)` evaluates
`262143 < 262143` against the quirked effective capacity and records
`OutOfRange`, so the device ends faulted (whatever the earlier iterations did)
and the subsequent full-effective-capacity read aborts without filling its
buffer instead of returning all zero bytes. -/
theorem clear_M24M02_leaves_fault :
    (clear devM24M02 stZero).err ≠ EEPROM_NoError ∧
    (readArray devM24M02 0 262143 (clear devM24M02 stZero)).2 = none := by
  have h1 : (clear devM24M02 stZero).err ≠ 0 := by
    rw [clear]
    have hsize : devM24M02.size / 4 = 65535 + 1 := by decide
    rw [hsize, List.range_succ, List.foldl_append, List.foldl_cons, List.foldl_nil]
    generalize (List.range 65535).foldl (fun s i => writeLong devM24M02 (i * 4) 0 s) stZero = S
    by_cases hS : S.err = 0
    · have hchk : checkAddress devM24M02.typ (65535 * 4 + 3) = false := by decide
      simp [writeLong, hS, hchk, setErr, EEPROM_OutOfRange]
    · simp [writeLong, hS]
  refine ⟨by simpa [EEPROM_NoError] using h1, by simp only [readArray, if_pos h1]⟩

/-- C10: `getSize` returns the nominal capacity (the enumerator value) of the
configured variant for every variant except T24C1025, for which it returns the
T24C1024 capacity; the value is fixed by the constructor alone (the model's
device record is immutable after `mkDev`). -/
theorem getSize_eq_nominal_except_T24C1025 (cs : Nat) (t : Typ) :
    getSize (mkDev cs t) =
      if t = .T24C1025 then typeVal .T24C1024 else typeVal t := by
  cases t <;> rfl

end Eeprom

namespace Eeprom


/-- A bus write transaction never changes the error state in the model. -/
theorem err_i2cWrite (t : Typ) (da : Nat) (bs : List Nat) (rep : Bool) (st : St) :
    (i2cWrite t da bs rep st).err = st.err := by
  rw [i2cWrite]; split <;> rfl

/-- A bus read transaction never changes the error state in the model. -/
theorem err_i2cRead (da n : Nat) (st : St) :
    (i2cRead da n st).1.err = st.err := rfl

/-- The ready-wait poll never changes the error state. -/
theorem err_ready (dev : Dev) (st : St) :
    (ready dev st).err = st.err := by
  rw [ready]; split
  . rfl
  . exact err_i2cWrite _ _ _ _ _

/-- A sequential read whose two bounds checks pass keeps the error state. -/
theorem err_readArray (dev : Dev) (a n : Nat) (st : St)
    (h1 : checkAddress dev.typ a = true)
    (h2 : checkAddress dev.typ (endAddr a n) = true) :
    (readArray dev a n st).1.err = st.err := by
  rw [readArray]
  split
  . rfl
  . rw [if_neg (by simp [h1]), if_neg (by simp [h2]), if_neg (by simp [busAck]),
      if_neg (by simp [busAck])]
    rw [err_i2cRead, err_i2cWrite]

/-- A single-chunk run of the paged-write loop is one `chunkStep`. -/
theorem chunkLoop_one (dev : Dev) (data : List Nat) (l s w a : Nat) (st : St) :
    chunkLoop dev data l s 1 w a st = (chunkStep dev data l s w a st).2.2.2 := by
  rcases h : chunkStep dev data l s w a st with ⟨stop, w', a', st'⟩
  rw [chunkLoop, h]
  cases stop <;> rfl

/-- One page chunk keeps the error state when its read-modify-write page
lies within the bounds check (the model transport always acks). -/
theorem err_chunkStep (dev : Dev) (data : List Nat) (l s w a : Nat) (st : St)
    (h1 : checkAddress dev.typ
      (inBlockAddr dev.typ a - inBlockAddr dev.typ a % pageWriteSize dev.typ) = true)
    (h2 : checkAddress dev.typ
      (endAddr (inBlockAddr dev.typ a - inBlockAddr dev.typ a % pageWriteSize dev.typ)
        (pageWriteSize dev.typ)) = true) :
    ((chunkStep dev data l s w a st).2.2.2).err = st.err := by
  rw [chunkStep]
  rw [if_neg (by simp [busAck])]
  rw [err_ready, err_i2cWrite]
  split
  . exact err_readArray dev _ _ st h1 h2
  . rfl

/-- Away from the wrap, `checkAddress(address + size - 1)` sees the span's
last byte. -/
theorem endAddr_sub_one (x n : Nat) (h1 : 1 ≤ x + n) (h2 : x + n < 2 ^ 32) :
    endAddr x n = x + n - 1 := by
  rw [endAddr]; omega

/-- For every variant and in-range address, the aligned page the
read-modify-write re-reads (at the in-block address) passes both bounds
checks of `read`. -/
theorem rmw_page_in_range (t : Typ) (a : Nat) (h : checkAddress t a = true) :
    checkAddress t (inBlockAddr t a - inBlockAddr t a % pageWriteSize t) = true ∧
    checkAddress t (endAddr (inBlockAddr t a - inBlockAddr t a % pageWriteSize t)
      (pageWriteSize t)) = true := by
  have hb1 : 1 ≤ inBlockAddr t a - inBlockAddr t a % pageWriteSize t + pageWriteSize t := by
    have : 0 < pageWriteSize t := by cases t <;> decide
    omega
  have hinb : inBlockAddr t a ≤ a := by
    rw [inBlockAddr]
    split
    . exact Nat.mod_le _ _
    . split
      . exact Nat.mod_le _ _
      . exact le_rfl
  have ha : a < 262144 := by
    cases t <;> simp [checkAddress, typeVal] at h <;> omega
  have hpLe : pageWriteSize t ≤ 256 := by cases t <;> decide
  have hb2 : inBlockAddr t a - inBlockAddr t a % pageWriteSize t + pageWriteSize t < 2 ^ 32 := by
    have := Nat.mod_le (inBlockAddr t a) (pageWriteSize t)
    omega
  rw [endAddr_sub_one _ _ hb1 hb2]
  cases t <;>
    simp [checkAddress, inBlockAddr, pageWriteSize, typeVal] at h ⊢ <;>
    omega

/-- C9 amended: for every variant and every in-range start address other
than 0, an array write of length zero leaves the error state `NoError` (at
address 0 the unsigned wrap in the end-of-span check records `OutOfRange`
instead, see the counterexample). -/
theorem zero_length_write_no_error (t : Typ) (cs a : Nat) (data : List Nat) (m : Nat → Nat)
    (h1 : 1 ≤ a) (h2 : checkAddress t a = true) :
    (writeArray (mkDev cs t) a data 0 ⟨m, 0, [], 0⟩).err = EEPROM_NoError := by
  have htyp : (mkDev cs t).typ = t := rfl
  have ha32 : a < 2 ^ 32 := by
    cases t <;> simp only [checkAddress, typeVal, decide_eq_true_eq] at h2 <;> omega
  have hend : endAddr a 0 = a - 1 := by rw [endAddr]; omega
  have h3 : checkAddress t (a - 1) = true := by
    cases t <;> simp only [checkAddress, typeVal, decide_eq_true_eq] at h2 ⊢ <;> omega
  have hpage : 0 < pageWriteSize t := by cases t <;> decide
  have herr0 : (⟨m, 0, [], 0⟩ : St).err = 0 := rfl
  rw [writeArray, htyp]
  rw [if_neg (by simp [herr0]), if_neg (by simp [h2]), if_neg (by simp [hend, h3])]
  dsimp only
  by_cases hpo : a % pageWriteSize t = 0
  . have hb0 : (0 + a % pageWriteSize t) / pageWriteSize t % 256 = 0 := by
      rw [hpo]; simp
    have hrem : ((0 + a % pageWriteSize t) -
        (0 + a % pageWriteSize t) / pageWriteSize t % 256 * pageWriteSize t) % 65536 = 0 := by
      rw [hpo]; simp
    rw [hrem, if_neg (by simp), hb0]
    try rfl
  . have hmlt : a % pageWriteSize t < pageWriteSize t := Nat.mod_lt _ hpage
    have hb0 : (0 + a % pageWriteSize t) / pageWriteSize t % 256 = 0 := by
      rw [Nat.zero_add, Nat.div_eq_of_lt hmlt]
    have hrem : ((0 + a % pageWriteSize t) -
        (0 + a % pageWriteSize t) / pageWriteSize t % 256 * pageWriteSize t) % 65536
        = a % pageWriteSize t := by
      rw [hb0]
      have : pageWriteSize t ≤ 65536 := by cases t <;> decide
      omega
    rw [hrem, if_pos hpo, hb0]
    rw [chunkLoop_one]
    have hr := rmw_page_in_range t a h2
    rw [err_chunkStep (mkDev cs t) data 0 a 0 a ⟨m, 0, [], 0⟩
      (htyp ▸ hr.1) (htyp ▸ hr.2)]
    try rfl


/-- C9 witness: a zero-length write at the in-range address 5 of a T24C32
leaves the device healthy. -/
theorem zero_length_write_no_error_witness :
    1 ≤ 5 ∧ checkAddress .T24C32 5 = true ∧
    (writeArray (mkDev 0 .T24C32) 5 [] 0 ⟨fun _ => 0, 0, [], 0⟩).err = EEPROM_NoError :=
  ⟨by norm_num, by decide,
    zero_length_write_no_error .T24C32 0 5 [] (fun _ => 0) (by norm_num) (by decide)⟩

end Eeprom
